import Mathlib

/-!
Verification of the Distributed Elevator Control System (C sources:
`controller.c`, `car.c`, `safety.c`, `internal.c`, `call.c`).

Shallow embedding: C strings become `List Char`, machine integers become
`Nat`/`Int` (with `% 256` where a `uint8_t` store can wrap), fallible
parsing returns `Option`.  Each definition mirrors one C function and is
named after it.  Theorems `c1_*` .. `c10_*` settle the spec claims.
-/

namespace Elevator

/-- Characters of a string literal, the form C string constants take here. -/
def cs (s : String) : List Char := s.data

/-! ## Floor label codec (`floor_num_handler` / `index_handler`)

The same two functions appear verbatim in `controller.c`, `car.c`,
`safety.c` and `internal.c`; they are embedded once. -/

/-- `isdigit` in the C locale: `'0'..'9'`. -/
def isDigitChar (c : Char) : Bool := decide ('0' ≤ c ∧ c ≤ '9')

/-- `isspace` in the C locale, the characters `strtol` skips. -/
def isSpaceChar (c : Char) : Bool :=
  decide (c = ' ' ∨ c = '\t' ∨ c = '\n' ∨ c = '\x0b' ∨ c = '\x0c' ∨ c = '\r')

/-- Numeric value of a list of decimal digit characters (most significant first). -/
def digitsVal (ds : List Char) : Nat :=
  ds.foldl (fun a c => 10 * a + (c.toNat - 48)) 0

/-- `strtol(s, &end, 10)`: skip whitespace, optional sign, longest digit run.
Returns the value and whether a conversion was performed (`end ≠ nptr`).
The value is unbounded; `floor_num_handler` only compares it against
1/99/999, and `LONG_MAX`/`LONG_MIN` clamping cannot move a value across
those bounds. -/
def strtol10 (s : List Char) : Int × Bool :=
  let s1 := s.dropWhile isSpaceChar
  let signed : Bool × List Char :=
    match s1 with
    | '-' :: r => (true, r)
    | '+' :: r => (false, r)
    | _ => (false, s1)
  let ds := signed.2.takeWhile isDigitChar
  if ds = [] then (0, false)
  else (if signed.1 then -(digitsVal ds : Int) else (digitsVal ds : Int), true)

/-- `floor_num_handler` (controller.c:394, identical copies in car.c,
safety.c, internal.c): parse a floor label to its signed index.
`none` models returning 0 with `*out` unwritten. -/
def floor_num_handler (f : List Char) : Option Int :=
  match f with
  | [] => none
  | c :: rest =>
    if c = 'b' ∨ c = 'B' then
      let r := strtol10 rest
      if ¬r.2 ∨ r.1 < 1 ∨ 99 < r.1 then none else some (-r.1)
    else
      let r := strtol10 f
      if ¬r.2 ∨ r.1 < 1 ∨ 999 < r.1 then none else some r.1

/-- Decimal digit characters of `n`, most significant first (`"0"` for 0).
Fuel-driven tail recursion; `n + 1` units of fuel always suffice. -/
def natCharsGo : Nat → Nat → List Char → List Char
  | 0, _, acc => acc
  | fuel + 1, n, acc =>
    if n = 0 then acc else natCharsGo fuel (n / 10) (Char.ofNat (48 + n % 10) :: acc)

/-- `snprintf(out, 4, "%d", n)` digit part for `n ≥ 0`. -/
def natChars (n : Nat) : List Char :=
  if n = 0 then ['0'] else natCharsGo (n + 1) n []

/-- `index_handler` (controller.c:436): format a signed index as a label.
`snprintf(out, 4, ...)` keeps at most 3 characters, modelled by `take 3`. -/
def index_handler (i : Int) : List Char :=
  if i < 0 then ('B' :: natChars (-i).toNat).take 3
  else (natChars i.toNat).take 3

/-! ## Shared car block (`car_shared_mem`, shared.h)

Synchronisation primitives are elided; every embedded operation models one
critical section executed atomically.  `uint8_t` fields are `Nat`s whose
writes wrap at 256 where overflow is possible. -/

/-- The cross-process shared state block of one car. -/
structure car_shared_mem where
  status : List Char
  current_floor : List Char
  destination_floor : List Char
  open_button : Nat
  close_button : Nat
  door_obstruction : Nat
  overload : Nat
  emergency_stop : Nat
  individual_service_mode : Nat
  emergency_mode : Nat
  safety_system : Nat
  deriving DecidableEq, Repr

/-! ## Safety monitor (`safety.c` main loop body, lines 169-266) -/

/-- safety.c:219: membership of `status` in the five defined values. -/
def is_valid_status (s : car_shared_mem) : Bool :=
  decide (s.status = cs "Closed" ∨ s.status = cs "Opening" ∨ s.status = cs "Open" ∨
    s.status = cs "Closing" ∨ s.status = cs "Between")

/-- safety.c:233: every boolean flag field holds 0 or 1. -/
def are_valid_fields (s : car_shared_mem) : Bool :=
  decide ((s.open_button = 0 ∨ s.open_button = 1) ∧
    (s.close_button = 0 ∨ s.close_button = 1) ∧
    (s.door_obstruction = 0 ∨ s.door_obstruction = 1) ∧
    (s.overload = 0 ∨ s.overload = 1) ∧
    (s.emergency_stop = 0 ∨ s.emergency_stop = 1) ∧
    (s.individual_service_mode = 0 ∨ s.individual_service_mode = 1) ∧
    (s.emergency_mode = 0 ∨ s.emergency_mode = 1))

/-- safety.c:244, transcribed exactly as written:
`door_obstruction == 1 || (status == "Closing" || status == "Opening")`. -/
def is_valid_obstruction (s : car_shared_mem) : Bool :=
  decide (s.door_obstruction = 1 ∨ (s.status = cs "Closing" ∨ s.status = cs "Opening"))

/-- One wakeup of the safety monitor (safety.c:169-266): counter reset,
obstruction-while-closing reversal, emergency stop, overload, and the
data-consistency validation, in source order (diagnostic prints elided). -/
def safety_wakeup (s0 : car_shared_mem) : car_shared_mem :=
  let s1 := if s0.safety_system ≠ 1 then { s0 with safety_system := 1 } else s0
  let s2 := if s1.status = cs "Closing" ∧ s1.door_obstruction = 1 then
      { s1 with status := cs "Opening" } else s1
  if s2.emergency_stop = 1 ∧ s2.emergency_mode = 0 then
    { s2 with emergency_mode := 1, emergency_stop := 0 }
  else if s2.overload = 1 ∧ s2.emergency_mode = 0 then
    { s2 with emergency_mode := 1 }
  else
    let valid_cur := (floor_num_handler s2.current_floor).isSome
    let valid_dst := (floor_num_handler s2.destination_floor).isSome
    if s2.emergency_mode ≠ 1 ∧
        (¬valid_cur = true ∨ ¬valid_dst = true ∨ ¬is_valid_status s2 = true ∨
         ¬are_valid_fields s2 = true ∨ ¬is_valid_obstruction s2 = true) then
      { s2 with emergency_mode := 1 }
    else s2

/-- Invariants 1-4 of spec §3, as the claim words them: status is one of the
five values, both floors parse, every flag is boolean, and
`door_obstruction = 1` implies `status ∈ {Opening, Closing}`. -/
def spec_invariants_1_4 (s : car_shared_mem) : Bool :=
  is_valid_status s &&
  (floor_num_handler s.current_floor).isSome &&
  (floor_num_handler s.destination_floor).isSome &&
  are_valid_fields s &&
  decide (s.door_obstruction = 1 → (s.status = cs "Opening" ∨ s.status = cs "Closing"))

/-- The healthy initial block a car publishes (car.c:1029-1041, with the
counter at its steady-state value 1 maintained by the safety monitor). -/
def healthy_block : car_shared_mem :=
  { status := cs "Closed", current_floor := cs "1", destination_floor := cs "1",
    open_button := 0, close_button := 0, door_obstruction := 0, overload := 0,
    emergency_stop := 0, individual_service_mode := 0, emergency_mode := 0,
    safety_system := 1 }

/-- A block violating invariant 4: obstruction raised while the doors are
`Closed`. -/
def obstructed_closed_block : car_shared_mem :=
  { healthy_block with door_obstruction := 1 }

/-- C1: the safety monitor's validation step must set `emergency_mode := 1`
iff one of invariants 1-4 fails.  The code inverts the obstruction check
(safety.c:244, `door_obstruction == 1 ||` in place of `== 0 ||`): the
healthy block satisfies all four invariants yet is driven into emergency
mode, while a block violating invariant 4 (obstruction raised with doors
`Closed`) passes validation untouched. -/
theorem c1_validation_inverts_obstruction_invariant :
    spec_invariants_1_4 healthy_block = true ∧
    (safety_wakeup healthy_block).emergency_mode = 1 ∧
    spec_invariants_1_4 obstructed_closed_block = false ∧
    safety_wakeup obstructed_closed_block = obstructed_closed_block := by
  decide

/-! ## Car transmit watchdog (`car.c` tcp_transmit_thread, lines 800-828) -/

/-- One missed `delay`-ms period in the transmit thread (car.c:804-828):
increment the safety-system counter (`uint8_t` store) and, if the
incremented value reaches 3, latch emergency mode; the returned flag
records that an `EMERGENCY` frame is sent and the link terminated. -/
def miss_step (s : car_shared_mem) : car_shared_mem × Bool :=
  let val : Nat := s.safety_system + 1
  let s1 := { s with safety_system := val % 256 }
  if 3 ≤ val then ({ s1 with emergency_mode := 1 }, true)
  else (s1, false)

/-- C2: from a healthy block (counter = 1) the claim wants emergency only on
the third consecutive missed period.  The code (car.c:809,815: `val =
safety_system + 1; if (val >= 3)`) declares emergency on the second miss:
the first miss raises the counter to 2 without emergency, and the second
miss already sets `emergency_mode := 1` and sends `EMERGENCY`. -/
theorem c2_emergency_on_second_miss :
    (miss_step healthy_block).2 = false ∧
    (miss_step healthy_block).1.safety_system = 2 ∧
    (miss_step healthy_block).1.emergency_mode = 0 ∧
    (miss_step (miss_step healthy_block).1).2 = true ∧
    (miss_step (miss_step healthy_block).1).1.emergency_mode = 1 := by
  decide

/-! ## Floor label grammar (spec §3/§6) and the round trip (C3) -/

/-- The spec's label grammar, from its words: a decimal string denoting
1..999, or `B` followed by a decimal string denoting 1..99. -/
def specValidLabel (s : List Char) : Bool :=
  match s with
  | 'B' :: rest =>
    decide (rest ≠ []) && rest.all isDigitChar &&
      decide (1 ≤ digitsVal rest ∧ digitsVal rest ≤ 99)
  | _ =>
    decide (s ≠ []) && s.all isDigitChar &&
      decide (1 ≤ digitsVal s ∧ digitsVal s ≤ 999)

/-- Canonical labels: the grammar with no leading zero on the digit run,
exactly the strings `index_handler` produces. -/
def canonicalLabel (s : List Char) : Bool :=
  match s with
  | 'B' :: rest =>
    decide (rest ≠ []) && rest.all isDigitChar && decide (rest.head? ≠ some '0') &&
      decide (1 ≤ digitsVal rest ∧ digitsVal rest ≤ 99)
  | _ =>
    decide (s ≠ []) && s.all isDigitChar && decide (s.head? ≠ some '0') &&
      decide (1 ≤ digitsVal s ∧ digitsVal s ≤ 999)

/-- A signed index the spec calls valid: 1..999 or -99..-1. -/
def validIndex (n : Int) : Prop :=
  (1 ≤ n ∧ n ≤ 999) ∨ (-99 ≤ n ∧ n ≤ -1)

/-- C3 counterexample: the claim is false in both halves.  `"b5"` lies
outside the grammar (the grammar requires an uppercase `B`) yet
`floor_num_handler` accepts it as -5, so not every string outside the
grammar is rejected; and `"007"` is a decimal string denoting 7, within
the grammar, but its round trip returns `"7"`, not `"007"`. -/
theorem c3_parser_larger_than_grammar :
    specValidLabel (cs "b5") = false ∧ floor_num_handler (cs "b5") = some (-5) ∧
    specValidLabel (cs "007") = true ∧ floor_num_handler (cs "007") = some 7 ∧
    index_handler 7 ≠ cs "007" := by
  decide

set_option maxRecDepth 4000 in
/-- All positive valid indices print to canonical labels and parse back. -/
theorem roundtrip_pos : ∀ k : Nat, k < 999 →
    canonicalLabel (index_handler ((k : Int) + 1)) = true ∧
    floor_num_handler (index_handler ((k : Int) + 1)) = some ((k : Int) + 1) := by
  decide

set_option maxRecDepth 4000 in
/-- All basement valid indices print to canonical labels and parse back. -/
theorem roundtrip_neg : ∀ k : Nat, k < 99 →
    canonicalLabel (index_handler (-(k : Int) - 1)) = true ∧
    floor_num_handler (index_handler (-(k : Int) - 1)) = some (-(k : Int) - 1) := by
  decide

/-- Canonical labels satisfy the grammar. -/
theorem specValid_of_canonical (s : List Char) (h : canonicalLabel s = true) :
    specValidLabel s = true := by
  unfold canonicalLabel at h
  unfold specValidLabel
  split at h <;> simp_all

/-- C3 (amended): for every valid index, `index_handler` emits a canonical
grammar label and `floor_num_handler` parses it back to the same index, so
label → index → label is the identity on canonical labels; the parser is
strictly more liberal than the grammar (see the counterexample). -/
theorem c3_label_roundtrip (n : Int) (h : validIndex n) :
    canonicalLabel (index_handler n) = true ∧
    specValidLabel (index_handler n) = true ∧
    floor_num_handler (index_handler n) = some n := by
  have key : canonicalLabel (index_handler n) = true ∧
      floor_num_handler (index_handler n) = some n := by
    rcases h with ⟨h1, h2⟩ | ⟨h1, h2⟩
    · have hk : n = ((n.toNat - 1 : Nat) : Int) + 1 := by omega
      have hlt : n.toNat - 1 < 999 := by omega
      rw [hk]
      exact roundtrip_pos _ hlt
    · have hk : n = -(((-n).toNat - 1 : Nat) : Int) - 1 := by omega
      have hlt : (-n).toNat - 1 < 99 := by omega
      rw [hk]
      exact roundtrip_neg _ hlt
  exact ⟨key.1, specValid_of_canonical _ key.1, key.2⟩

/-- Witness for C3's amended theorem at the indices 7 and -5. -/
theorem c3_label_roundtrip_witness :
    floor_num_handler (index_handler 7) = some 7 ∧
    floor_num_handler (index_handler (-5)) = some (-5) :=
  ⟨(c3_label_roundtrip 7 (Or.inl (by norm_num))).2.2,
   (c3_label_roundtrip (-5) (Or.inr (by norm_num))).2.2⟩

/-! ## Controller per-car queue (`controller.c` lines 204-295)

`CarID.q` is the bounded ordered queue of floor indices, capacity 32. -/

def MAX_QUEUE : Nat := 32

/-- `in_queue` (controller.c:204): linear scan for a floor. -/
def in_queue (q : List Int) (f : Int) : Bool := q.contains f

/-- `queue_floor` (controller.c:220): append if there is room, else silently
drop the floor. -/
def queue_floor (q : List Int) (f : Int) : List Int :=
  if q.length < MAX_QUEUE then q ++ [f] else q

/-- `dequeue_floor` (controller.c:230): shift every floor forward, dropping
the head; no-op on an empty queue. -/
def dequeue_floor (q : List Int) : List Int :=
  if q.length ≤ 0 then q else q.tail

/-- `enqueue` (controller.c:247): insert `src` if absent, then ensure `dst`
appears, removing a pre-existing `dst` that precedes `src`.  The C sentinels
`src_index`/`dst_index` are -1 when the floor is absent, else the first
occurrence index. -/
def enqueue (q : List Int) (src dst : Int) : List Int :=
  if src = dst then q
  else
    let q1 := if in_queue q src then q else queue_floor q src
    let src_index : Int := if in_queue q1 src then (q1.indexOf src : Int) else -1
    let dst_index : Int := if in_queue q1 dst then (q1.indexOf dst : Int) else -1
    if 0 ≤ dst_index ∧ dst_index < src_index then
      queue_floor (q1.eraseIdx dst_index.toNat) dst
    else if dst_index < 0 then
      queue_floor q1 dst
    else q1

theorem in_queue_iff {q : List Int} {f : Int} : in_queue q f = true ↔ f ∈ q := by
  simp [in_queue]

/-- The queue after the source-insertion phase of `enqueue`. -/
def add_src (q : List Int) (s : Int) : List Int :=
  if s ∈ q then q else queue_floor q s

/-- Branch structure of `enqueue` with the -1 sentinels resolved. -/
theorem enqueue_cases (q : List Int) (s d : Int) (hsd : s ≠ d) :
    enqueue q s d =
      if d ∈ add_src q s then
        if s ∈ add_src q s ∧ (add_src q s).indexOf d < (add_src q s).indexOf s then
          queue_floor ((add_src q s).erase d) d
        else add_src q s
      else queue_floor (add_src q s) d := by
  have hq1 : (if in_queue q s = true then q else queue_floor q s) = add_src q s := by
    simp [add_src, in_queue_iff]
  simp only [enqueue, if_neg hsd, hq1]
  generalize add_src q s = q1
  by_cases hd : d ∈ q1 <;> by_cases hs : s ∈ q1 <;>
    simp only [in_queue_iff, hd, hs, if_true, if_false, reduceIte, true_and, false_and]
  · by_cases hlt : q1.indexOf d < q1.indexOf s
    · have h1 : (0 : Int) ≤ (q1.indexOf d : Int) ∧
          (q1.indexOf d : Int) < (q1.indexOf s : Int) := by omega
      rw [if_pos h1, if_pos hlt]
      simp [List.eraseIdx_indexOf_eq_erase]
    · have h1 : ¬ ((0 : Int) ≤ (q1.indexOf d : Int) ∧
          (q1.indexOf d : Int) < (q1.indexOf s : Int)) := by omega
      rw [if_neg h1, if_neg hlt, if_neg (by omega)]
  · rw [if_neg (by omega), if_neg (by omega)]
  · rw [if_neg (by omega), if_pos (by omega)]
  · rw [if_neg (by omega), if_pos (by omega)]

theorem queue_floor_length_le {q : List Int} {f : Int} (h : q.length ≤ 32) :
    (queue_floor q f).length ≤ 32 := by
  unfold queue_floor MAX_QUEUE
  split
  · simp
    omega
  · exact h

theorem add_src_facts {q : List Int} {s : Int} (hnd : q.Nodup) (hlen : q.length ≤ 30) :
    s ∈ add_src q s ∧ (add_src q s).Nodup ∧ (add_src q s).length ≤ 31 := by
  unfold add_src
  by_cases hs : s ∈ q
  · simp [hs, hnd]
    omega
  · rw [if_neg hs, queue_floor, if_pos (by unfold MAX_QUEUE; omega)]
    refine ⟨by simp, by simp [List.nodup_append, hnd, hs], by simp; omega⟩

theorem append_order_facts {e : List Int} {s d : Int} (hs : s ∈ e) (hd : d ∉ e) :
    s ∈ e ++ [d] ∧ d ∈ e ++ [d] ∧ (e ++ [d]).indexOf s < (e ++ [d]).indexOf d := by
  refine ⟨List.mem_append_left _ hs, List.mem_append_right _ (by simp), ?_⟩
  rw [List.indexOf_append_of_mem hs, List.indexOf_append_of_not_mem hd,
    List.indexOf_cons_self]
  have := List.indexOf_lt_length.2 hs
  omega

theorem queue_floor_nodup {q : List Int} {f : Int} (hnd : q.Nodup) (hf : f ∉ q) :
    (queue_floor q f).Nodup := by
  unfold queue_floor
  split
  · simp [List.nodup_append, hnd, hf]
  · exact hnd

/-- `enqueue` never introduces a duplicate floor. -/
theorem enqueue_nodup (q : List Int) (s d : Int) (hnd : q.Nodup) :
    (enqueue q s d).Nodup := by
  by_cases hsd : s = d
  · rw [enqueue, if_pos hsd]
    exact hnd
  have hnd1 : (add_src q s).Nodup := by
    unfold add_src
    split
    · exact hnd
    · exact queue_floor_nodup hnd (by assumption)
  rw [enqueue_cases q s d hsd]
  set q1 := add_src q s with hq1
  by_cases hd : d ∈ q1
  · by_cases hcond : s ∈ q1 ∧ q1.indexOf d < q1.indexOf s
    · rw [if_pos hd, if_pos hcond]
      exact queue_floor_nodup (hnd1.erase d) hnd1.not_mem_erase
    · rw [if_pos hd, if_neg hcond]
      exact hnd1
  · rw [if_neg hd]
    exact queue_floor_nodup hnd1 hd

/-- `enqueue` keeps the queue length within the 32-slot capacity. -/
theorem enqueue_length_le (q : List Int) (s d : Int) (hlen : q.length ≤ 32) :
    (enqueue q s d).length ≤ 32 := by
  by_cases hsd : s = d
  · rw [enqueue, if_pos hsd]
    exact hlen
  have hlen1 : (add_src q s).length ≤ 32 := by
    unfold add_src
    split
    · exact hlen
    · exact queue_floor_length_le hlen
  rw [enqueue_cases q s d hsd]
  set q1 := add_src q s with hq1
  by_cases hd : d ∈ q1
  · by_cases hcond : s ∈ q1 ∧ q1.indexOf d < q1.indexOf s
    · rw [if_pos hd, if_pos hcond]
      refine queue_floor_length_le ?_
      have := List.length_erase_of_mem hd
      omega
    · rw [if_pos hd, if_neg hcond]
      exact hlen1
  · rw [if_neg hd]
    exact queue_floor_length_le hlen1

/-- `enqueue` is a no-op when src and dst both sit in the queue with dst not
strictly before src. -/
theorem enqueue_keep {e : List Int} {s d : Int} (hsd : s ≠ d) (hs : s ∈ e)
    (hd : d ∈ e) (hge : ¬ e.indexOf d < e.indexOf s) : enqueue e s d = e := by
  rw [enqueue_cases e s d hsd]
  have h1 : add_src e s = e := by
    unfold add_src
    exact if_pos hs
  rw [h1, if_pos hd, if_neg (by tauto)]

/-- `enqueue` is a no-op on a full queue missing src or dst. -/
theorem enqueue_full {e : List Int} {s d : Int} (hsd : s ≠ d)
    (hfull : e.length = 32) (h : s ∉ e ∨ d ∉ e) : enqueue e s d = e := by
  rw [enqueue_cases e s d hsd]
  have hq : queue_floor e d = e := by
    rw [queue_floor, if_neg (by unfold MAX_QUEUE; omega)]
  by_cases hs : s ∈ e
  · have hd : d ∉ e := by tauto
    have h1 : add_src e s = e := by
      unfold add_src
      exact if_pos hs
    rw [h1, if_neg hd, hq]
  · have h1 : add_src e s = e := by
      unfold add_src
      rw [if_neg hs, queue_floor, if_neg (by unfold MAX_QUEUE; omega)]
    rw [h1]
    by_cases hd : d ∈ e
    · rw [if_pos hd, if_neg (by tauto)]
    · rw [if_neg hd, hq]

/-- A second identical `enqueue` before any dequeue is a no-op. -/
theorem enqueue_idem (q : List Int) (s d : Int) (hnd : q.Nodup)
    (hlen : q.length ≤ 32) : enqueue (enqueue q s d) s d = enqueue q s d := by
  by_cases hsd : s = d
  · rw [enqueue, if_pos hsd, enqueue, if_pos hsd]
  rw [enqueue_cases q s d hsd]
  have hnd1 : (add_src q s).Nodup := by
    unfold add_src
    split
    · exact hnd
    · exact queue_floor_nodup hnd (by assumption)
  have hlen1 : (add_src q s).length ≤ 32 := by
    unfold add_src
    split
    · exact hlen
    · exact queue_floor_length_le hlen
  set q1 := add_src q s with hq1
  by_cases hsq : s ∈ q1
  · by_cases hd : d ∈ q1
    · by_cases hlt : q1.indexOf d < q1.indexOf s
      · rw [if_pos hd, if_pos ⟨hsq, hlt⟩]
        have hse : s ∈ q1.erase d := (List.mem_erase_of_ne hsd).2 hsq
        have hde : d ∉ q1.erase d := hnd1.not_mem_erase
        have hlee : (q1.erase d).length < 32 := by
          have := List.length_erase_of_mem hd
          omega
        rw [queue_floor, if_pos (by unfold MAX_QUEUE; omega)]
        obtain ⟨h1, h2, h3⟩ := append_order_facts hse hde
        exact enqueue_keep hsd h1 h2 (by omega)
      · rw [if_pos hd, if_neg (by tauto)]
        exact enqueue_keep hsd hsq hd hlt
    · rw [if_neg hd]
      by_cases hfull : q1.length < 32
      · rw [queue_floor, if_pos (by unfold MAX_QUEUE; omega)]
        obtain ⟨h1, h2, h3⟩ := append_order_facts hsq hd
        exact enqueue_keep hsd h1 h2 (by omega)
      · rw [queue_floor, if_neg (by unfold MAX_QUEUE; omega)]
        exact enqueue_full hsd (by omega) (Or.inr hd)
  · have hfull : q1.length = 32 := by
      unfold add_src at hq1
      by_cases hs : s ∈ q
      · rw [if_pos hs] at hq1
        exact absurd (by rw [hq1]; exact hs) hsq
      · rw [if_neg hs] at hq1
        unfold queue_floor MAX_QUEUE at hq1
        split at hq1
        · exact absurd (by simp [hq1]) hsq
        · rw [hq1]
          omega
    by_cases hd : d ∈ q1
    · rw [if_pos hd, if_neg (by tauto)]
      exact enqueue_full hsd hfull (Or.inl hsq)
    · rw [if_neg hd, queue_floor, if_neg (by unfold MAX_QUEUE; omega)]
      exact enqueue_full hsd hfull (Or.inl hsq)

/-- Queue contents reachable through the controller's queue operations. -/
inductive Reachable : List Int → Prop where
  | nil : Reachable []
  | enq (s d : Int) {q : List Int} : Reachable q → Reachable (enqueue q s d)
  | deq {q : List Int} : Reachable q → Reachable (dequeue_floor q)

/-- Every reachable queue is duplicate-free and within capacity. -/
theorem Reachable.nodup_and_le {q : List Int} (h : Reachable q) :
    q.Nodup ∧ q.length ≤ 32 := by
  induction h with
  | nil => exact ⟨List.nodup_nil, by simp⟩
  | enq s d _ ih => exact ⟨enqueue_nodup _ s d ih.1, enqueue_length_le _ s d ih.2⟩
  | @deq q _ ih =>
    by_cases h : q.length ≤ 0
    · constructor
      · simp only [dequeue_floor, if_pos h]
        exact ih.1
      · simp only [dequeue_floor, if_pos h]
        exact ih.2
    · have h2 := ih.2
      constructor
      · simp only [dequeue_floor, if_neg h]
        exact ih.1.tail
      · simp only [dequeue_floor, if_neg h, List.length_tail]
        omega

/-! ## Controller registry and call routing (`controller.c`) -/

/-- One registry slot (`CarID` in controller.c:43); the socket and
shared-memory handles are OS resources outside the embedding. -/
structure CarID where
  in_use : Bool
  name : List Char
  lowest_floor : Int
  highest_floor : Int
  q : List Int
  status : List Char
  cur_floor : List Char
  dst_floor : List Char
  deriving DecidableEq, Repr

/-- `can_service` (controller.c:494): in use and both endpoints inside the
inclusive `[lowest_floor, highest_floor]` range. -/
def can_service (car : CarID) (src dst : Int) : Bool :=
  if ¬car.in_use then false
  else if src < car.lowest_floor ∨ car.highest_floor < src then false
  else if dst < car.lowest_floor ∨ car.highest_floor < dst then false
  else true

/-- `car_selector` (controller.c:554): first in-use slot, in slot order,
that can service the trip. -/
def car_selector : List CarID → Int → Int → Option (List Char)
  | [], _, _ => none
  | c :: rest, src, dst =>
    if ¬c.in_use then car_selector rest src dst
    else if can_service c src dst then some c.name
    else car_selector rest src dst

/-- `send_car` (controller.c:536): the `FLOOR <head>` frame sent to the car,
`none` when the queue is empty. -/
def send_car (car : CarID) : Option (List Char) :=
  match car.q with
  | [] => none
  | f :: _ => some (cs "FLOOR " ++ index_handler f)

/-- `car_scheduler_handler` (controller.c:659): dequeue the head when the
car reports `Opening` at the head's label, then send the new head if any.
Returns the updated slot and the frame sent. -/
def car_scheduler_handler (car : CarID) : CarID × Option (List Char) :=
  let car1 :=
    match car.q with
    | [] => car
    | f :: _ =>
      if car.status = cs "Opening" ∧ car.cur_floor = index_handler f then
        { car with q := dequeue_floor car.q }
      else car
  if 0 < car1.q.length then (car1, send_car car1) else (car1, none)

/-- `find_registry` (controller.c:477) combined with a field update: apply
`f` to the first in-use slot carrying `name`. -/
def update_registry (f : CarID → CarID) : List CarID → List Char → List CarID
  | [], _ => []
  | c :: rest, name =>
    if c.in_use ∧ c.name = name then f c :: rest
    else c :: update_registry f rest name

/-- Reply of the controller to a `CALL` client. -/
inductive CallReply where
  | unavailable
  | car (name : List Char)
  deriving DecidableEq, Repr

/-- `tcp_call_thread` (controller.c:749) after `sscanf` has split the two
floor tokens: parse and validate, select a car, reply, and enqueue on the
selected car's slot.  The `CAR <name>` frame is sent before the enqueue, so
the reply never depends on the queue content. -/
def tcp_call (reg : List CarID) (src_floor dst_floor : List Char) :
    CallReply × List CarID :=
  match floor_num_handler src_floor, floor_num_handler dst_floor with
  | some s, some d =>
    if s = d then (.unavailable, reg)
    else
      match car_selector reg s d with
      | some nm =>
        (.car nm, update_registry (fun c => { c with q := enqueue c.q s d }) reg nm)
      | none => (.unavailable, reg)
  | _, _ => (.unavailable, reg)

theorem car_selector_none_iff (reg : List CarID) (s d : Int) :
    car_selector reg s d = none ↔
      ∀ c ∈ reg, ¬(c.in_use = true ∧ can_service c s d = true) := by
  induction reg with
  | nil => simp [car_selector]
  | cons c rest ih =>
    by_cases hu : c.in_use
    · by_cases hc : can_service c s d
      · simp [car_selector, hu, hc]
      · simp [car_selector, hu, hc, ih]
    · have hns : can_service c s d = false := by
        rw [can_service]
        simp [hu]
      simp [car_selector, hu, ih, hns]

theorem car_selector_first (l1 : List CarID) (c : CarID) (l2 : List CarID)
    (s d : Int) (h1 : ∀ c' ∈ l1, ¬(c'.in_use = true ∧ can_service c' s d = true))
    (hc : can_service c s d = true) :
    car_selector (l1 ++ c :: l2) s d = some c.name := by
  induction l1 with
  | nil =>
    have hu : c.in_use = true := by
      by_contra hu
      rw [can_service] at hc
      simp [hu] at hc
    simp [car_selector, hu, hc]
  | cons c' rest ih =>
    have h' := h1 c' (by simp)
    have hstep : car_selector (c' :: (rest ++ c :: l2)) s d =
        car_selector (rest ++ c :: l2) s d := by
      by_cases hu : c'.in_use
      · have hcs : can_service c' s d = false := by
          by_contra hne
          simp only [Bool.not_eq_false] at hne
          exact h' ⟨hu, hne⟩
        simp [car_selector, hu, hcs]
      · simp [car_selector, hu]
    rw [List.cons_append, hstep]
    exact ih (fun x hx => h1 x (by simp [hx]))

/-! ## Claims C4, C5, C6, C7, C10 -/

/-- C4 (amended): for a call with distinct floors and a duplicate-free
queue with room for both floors (length at most 30), `enqueue` leaves the
source at a strictly earlier queue position than the destination. -/
theorem c4_src_before_dst (q : List Int) (s d : Int) (hnd : q.Nodup)
    (hlen : q.length ≤ 30) (hsd : s ≠ d) :
    s ∈ enqueue q s d ∧ d ∈ enqueue q s d ∧
    (enqueue q s d).indexOf s < (enqueue q s d).indexOf d := by
  obtain ⟨hs1, hnd1, hlen1⟩ := add_src_facts (s := s) hnd hlen
  rw [enqueue_cases q s d hsd]
  set q1 := add_src q s with hq1
  by_cases hd : d ∈ q1
  · by_cases hlt : q1.indexOf d < q1.indexOf s
    · rw [if_pos hd, if_pos ⟨hs1, hlt⟩]
      have hse : s ∈ q1.erase d := (List.mem_erase_of_ne hsd).2 hs1
      have hde : d ∉ q1.erase d := hnd1.not_mem_erase
      have hlee : (q1.erase d).length < 32 := by
        have := List.length_erase_of_mem hd
        omega
      rw [queue_floor, if_pos (by unfold MAX_QUEUE; omega)]
      exact append_order_facts hse hde
    · rw [if_pos hd, if_neg (by tauto)]
      have hne : q1.indexOf s ≠ q1.indexOf d := by
        intro h
        exact hsd ((List.indexOf_inj hs1 hd).1 h)
      exact ⟨hs1, hd, by omega⟩
  · rw [if_neg hd, queue_floor, if_pos (by unfold MAX_QUEUE; omega)]
    exact append_order_facts hs1 hd

/-- Witness for C4's amended theorem on the empty queue. -/
theorem c4_src_before_dst_witness :
    (3 : Int) ∈ enqueue [] 3 7 ∧ (7 : Int) ∈ enqueue [] 3 7 ∧
    (enqueue [] 3 7).indexOf 3 < (enqueue [] 3 7).indexOf 7 :=
  c4_src_before_dst [] 3 7 List.nodup_nil (by decide) (by decide)

/-- A reachable 31-floor queue used to exhibit capacity overflow. -/
def q31 : List Int := (List.range 31).map (fun k => (k : Int) + 101)

/-- 16 accepted calls from the empty queue. -/
def buildQ : Nat → List Int
  | 0 => []
  | n + 1 => enqueue (buildQ n) (100 + 2 * (n : Int)) (101 + 2 * (n : Int))

theorem buildQ_reachable (n : Nat) : Reachable (buildQ n) := by
  induction n with
  | zero => exact Reachable.nil
  | succ n ih => exact Reachable.enq _ _ ih

set_option maxRecDepth 40000 in
theorem q31_reachable : Reachable q31 := by
  have h := Reachable.deq (buildQ_reachable 16)
  have heq : dequeue_floor (buildQ 16) = q31 := by decide
  rwa [heq] at h

/-- A registered car whose queue already holds 31 floors. -/
def carA : CarID :=
  { in_use := true, name := cs "A", lowest_floor := 1, highest_floor := 999,
    q := q31, status := cs "Closed", cur_floor := cs "1", dst_floor := cs "1" }

set_option maxRecDepth 40000 in
/-- C4 counterexample: with 31 floors already queued (a reachable content),
the call `CALL 1 2` is accepted — both floors parse, are distinct and in
range, and the client is answered `CAR A` — yet the destination floor is
silently dropped by the capacity check, so the source does not precede the
destination: the destination is not in the queue at all. -/
theorem c4_overflow_drops_destination :
    Reachable q31 ∧
    floor_num_handler (cs "1") = some 1 ∧ floor_num_handler (cs "2") = some 2 ∧
    can_service carA 1 2 = true ∧
    (tcp_call [carA] (cs "1") (cs "2")).1 = CallReply.car (cs "A") ∧
    (tcp_call [carA] (cs "1") (cs "2")).2 = [{ carA with q := q31 ++ [1] }] ∧
    (2 : Int) ∉ q31 ++ [1] := by
  refine ⟨q31_reachable, by decide, by decide, by decide, by decide, by decide,
    by decide⟩

/-- C5: on any reachable queue, repeating an identical `enqueue` before any
dequeue leaves the queue unchanged, and no floor ever appears twice. -/
theorem c5_enqueue_idempotent (q : List Int) (s d : Int) (h : Reachable q) :
    enqueue (enqueue q s d) s d = enqueue q s d ∧ (enqueue q s d).Nodup := by
  obtain ⟨hnd, hlen⟩ := h.nodup_and_le
  exact ⟨enqueue_idem q s d hnd hlen, enqueue_nodup q s d hnd⟩

/-- Witness for C5 on the empty queue. -/
theorem c5_enqueue_idempotent_witness :
    enqueue (enqueue [] 3 7) 3 7 = enqueue [] 3 7 ∧ (enqueue [] 3 7).Nodup :=
  c5_enqueue_idempotent [] 3 7 Reachable.nil

/-- C6: on a `STATUS` frame, the per-car scheduler dequeues the head exactly
when the reported status is `Opening` and the reported current floor equals
the head's label; afterwards it sends `FLOOR <head>` for the possibly new
head when the queue is non-empty; an empty queue is left alone with nothing
sent. -/
theorem c6_scheduler_spec (car : CarID) :
    (car.q = [] → car_scheduler_handler car = (car, none)) ∧
    (∀ f rest, car.q = f :: rest →
      ((car.status = cs "Opening" ∧ car.cur_floor = index_handler f) →
        car_scheduler_handler car =
          ({ car with q := rest },
           match rest with
           | [] => none
           | g :: _ => some (cs "FLOOR " ++ index_handler g))) ∧
      (¬(car.status = cs "Opening" ∧ car.cur_floor = index_handler f) →
        car_scheduler_handler car = (car, some (cs "FLOOR " ++ index_handler f)))) := by
  refine ⟨fun h => by simp [car_scheduler_handler, h],
    fun f rest hq => ⟨fun hcond => ?_, fun hcond => ?_⟩⟩
  · cases rest with
    | nil => simp [car_scheduler_handler, hq, hcond, dequeue_floor, send_car]
    | cons g t => simp [car_scheduler_handler, hq, hcond, dequeue_floor, send_car]
  · simp [car_scheduler_handler, hq, hcond, send_car]

/-- A car at floor 3 reporting `Opening` with head 3 queued then 7. -/
def carSched : CarID :=
  { in_use := true, name := cs "S", lowest_floor := 1, highest_floor := 9,
    q := [3, 7], status := cs "Opening", cur_floor := cs "3", dst_floor := cs "3" }

/-- Witness for C6: the head 3 is dequeued and `FLOOR 7` is sent. -/
theorem c6_scheduler_spec_witness :
    car_scheduler_handler carSched =
      ({ carSched with q := [7] }, some (cs "FLOOR " ++ index_handler 7)) :=
  ((c6_scheduler_spec carSched).2 3 [7] (by decide)).1 (by decide)

/-- C7: a `CALL` is answered `UNAVAILABLE` when a floor fails to parse or
both parse alike; otherwise the registry is scanned in slot order and the
first in-use car covering both endpoints is named, `UNAVAILABLE` when none
does. -/
theorem c7_call_routing (reg : List CarID) (srcS dstS : List Char) :
    ((floor_num_handler srcS = none ∨ floor_num_handler dstS = none ∨
        (∃ v, floor_num_handler srcS = some v ∧ floor_num_handler dstS = some v)) →
      (tcp_call reg srcS dstS).1 = CallReply.unavailable) ∧
    (∀ s d, floor_num_handler srcS = some s → floor_num_handler dstS = some d →
      s ≠ d →
      ((∀ c ∈ reg, ¬(c.in_use = true ∧ can_service c s d = true)) →
        (tcp_call reg srcS dstS).1 = CallReply.unavailable) ∧
      (∀ l1 car l2, reg = l1 ++ car :: l2 →
        (∀ c ∈ l1, ¬(c.in_use = true ∧ can_service c s d = true)) →
        can_service car s d = true →
        (tcp_call reg srcS dstS).1 = CallReply.car car.name)) := by
  constructor
  · intro h
    rcases h with h | h | ⟨v, h1, h2⟩
    · simp [tcp_call, h]
    · cases hfs : floor_num_handler srcS <;> simp [tcp_call, h, hfs]
    · simp [tcp_call, h1, h2]
  · intro s d hs hd hne
    constructor
    · intro hnone
      have hsel := (car_selector_none_iff reg s d).2 hnone
      simp [tcp_call, hs, hd, hne, hsel]
    · intro l1 car l2 hreg h1 hc
      have hsel := car_selector_first l1 car l2 s d h1 hc
      rw [hreg]
      simp [tcp_call, hs, hd, hne, hsel]

/-- A free slot followed by a narrow car and a wide car. -/
def carNarrow : CarID :=
  { in_use := true, name := cs "N", lowest_floor := 1, highest_floor := 5,
    q := [], status := cs "Closed", cur_floor := cs "1", dst_floor := cs "1" }

def carWide : CarID :=
  { in_use := true, name := cs "W", lowest_floor := 1, highest_floor := 20,
    q := [], status := cs "Closed", cur_floor := cs "1", dst_floor := cs "1" }

/-- Witness for C7: `CALL 2 8` skips the narrow car and names the wide one. -/
theorem c7_call_routing_witness :
    (tcp_call [carNarrow, carWide] (cs "2") (cs "8")).1 = CallReply.car (cs "W") :=
  ((c7_call_routing [carNarrow, carWide] (cs "2") (cs "8")).2 2 8 (by decide)
    (by decide) (by decide)).2 [carNarrow] carWide [] (by decide) (by decide)
    (by decide)

theorem dequeue_floor_length_le (q : List Int) :
    (dequeue_floor q).length ≤ q.length := by
  rw [dequeue_floor]
  split
  · exact Nat.le_refl _
  · simp [List.length_tail]

/-- A second registered car with a full-but-one queue for the C10 instance. -/
def carB : CarID :=
  { in_use := true, name := cs "B", lowest_floor := 1, highest_floor := 999,
    q := q31, status := cs "Closed", cur_floor := cs "1", dst_floor := cs "1" }

set_option maxRecDepth 40000 in
/-- C10: every queue operation keeps the length within 0..32; an enqueue
past capacity silently discards the excess floor while the client is still
answered `CAR <name>`: `CALL 5 6` against a 31-deep queue admits the source
5 (filling the queue) and drops the destination 6. -/
theorem c10_queue_capacity :
    (∀ q s d, q.length ≤ 32 → (enqueue q s d).length ≤ 32) ∧
    (∀ q f, q.length ≤ 32 → (queue_floor q f).length ≤ 32) ∧
    (∀ q : List Int, (dequeue_floor q).length ≤ q.length) ∧
    (tcp_call [carB] (cs "5") (cs "6")).1 = CallReply.car (cs "B") ∧
    (tcp_call [carB] (cs "5") (cs "6")).2 = [{ carB with q := q31 ++ [5] }] ∧
    (q31 ++ [5]).length = 32 ∧ (5 : Int) ∈ q31 ++ [5] ∧ (6 : Int) ∉ q31 ++ [5] := by
  refine ⟨fun q s d h => enqueue_length_le q s d h,
    fun q f h => queue_floor_length_le h,
    fun q => dequeue_floor_length_le q,
    by decide, by decide, by decide, by decide, by decide⟩

/-- Witness for C10's bounded statements at a concrete queue. -/
theorem c10_queue_capacity_witness :
    (enqueue [3] 4 9).length ≤ 32 ∧ (queue_floor [3] 4).length ≤ 32 :=
  ⟨c10_queue_capacity.1 [3] 4 9 (by decide),
   c10_queue_capacity.2.1 [3] 4 (by decide)⟩

/-! ## Car service mode (`car.c`) and claim C8 -/

/-- `floor_validator` (car.c:199): clamp a floor index into the car's
configured `[lowest, highest]` range. -/
def floor_validator (lo hi f : Int) : Int :=
  if f < lo then lo
  else if hi < f then hi
  else f

/-- `next_floor` (car.c:216): one arithmetic step toward the destination,
skipping index 0. -/
def next_floor (current_floor destination_floor : Int) : Int :=
  if current_floor < destination_floor then
    (if current_floor + 1 = 0 then 1 else current_floor + 1)
  else if destination_floor < current_floor then
    (if current_floor - 1 = 0 then -1 else current_floor - 1)
  else current_floor

/-- `move_one_floor` (car.c:588) in the interference-free sequential model:
status goes to `Between`, and after the delay (still `Between`) the current
floor steps once toward the destination, clamped to the range, and status
returns to `Closed`.  A parse failure leaves the C locals at their
initialiser 0, modelled by `getD 0`. -/
def move_one_floor (lo hi : Int) (s : car_shared_mem) : car_shared_mem :=
  let s1 := { s with status := cs "Between" }
  let current := (floor_num_handler s1.current_floor).getD 0
  let destination := (floor_num_handler s1.destination_floor).getD 0
  let next := floor_validator lo hi (next_floor current destination)
  { s1 with current_floor := index_handler next, status := cs "Closed" }

/-- `service_between` (car.c:619): in individual service mode with doors
`Closed`, move only when the destination is arithmetically one away from
the current floor, otherwise clamp `destination_floor := current_floor`. -/
def service_between (lo hi : Int) (s : car_shared_mem) : car_shared_mem :=
  if ¬(s.individual_service_mode ≠ 0) ∨ ¬(s.status = cs "Closed") then s
  else
    let current := (floor_num_handler s.current_floor).getD 0
    let destination := (floor_num_handler s.destination_floor).getD 0
    if ¬(destination = current + 1 ∨ destination = current - 1) then
      { s with destination_floor := s.current_floor }
    else move_one_floor lo hi s

/-- Adjacency as the claim defines it: one step with index 0 skipped, the
computation the internal panel's `up`/`down` performs (internal.c:161-165). -/
def spec_adjacent (c d : Int) : Prop :=
  d = (if c + 1 = 0 then 1 else c + 1) ∨ d = (if c - 1 = 0 then -1 else c - 1)

instance (c d : Int) : Decidable (spec_adjacent c d) := by
  unfold spec_adjacent
  exact inferInstance

/-- A parsed floor index is never 0. -/
theorem floor_num_handler_nonzero {f : List Char} {v : Int}
    (h : floor_num_handler f = some v) : v ≠ 0 := by
  cases f with
  | nil => simp [floor_num_handler] at h
  | cons c rest =>
    simp only [floor_num_handler] at h
    split at h
    · split at h
      · exact absurd h (by simp)
      · rename_i hcond
        push_neg at hcond
        simp only [Option.some.injEq] at h
        omega
    · split at h
      · exact absurd h (by simp)
      · rename_i hcond
        push_neg at hcond
        simp only [Option.some.injEq] at h
        omega

/-- The service-mode block sitting at B1 after the panel's `up` wrote the
zero-skipped adjacent floor 1 into the destination. -/
def service_block_B1 : car_shared_mem :=
  { healthy_block with
    individual_service_mode := 1,
    current_floor := cs "B1", destination_floor := cs "1" }

/-- The service-mode block at the top floor 5 with destination 6. -/
def service_block_top : car_shared_mem :=
  { healthy_block with
    individual_service_mode := 1,
    current_floor := cs "5", destination_floor := cs "6" }

/-- C8 counterexample: B1 and 1 are adjacent in the claim's zero-skipping
sense — exactly what the panel's `up` computes from B1 — yet
`service_between` clamps the destination back to B1 and does not move,
because its check is the raw arithmetic `dest == cur ± 1` (car.c:638) and
-1 and 1 differ by two.  Moreover even an arithmetically adjacent
destination is not reached when it lies outside the configured range: at
the top floor 5 of a 1..5 car with destination 6, the move is clamped and
the car stays at 5 with the destination still 6. -/
theorem c8_adjacency_counterexample :
    spec_adjacent (-1) 1 ∧
    floor_num_handler (cs "B1") = some (-1) ∧
    floor_num_handler (cs "1") = some 1 ∧
    service_between 1 999 service_block_B1 =
      { service_block_B1 with destination_floor := cs "B1" } ∧
    spec_adjacent 5 6 ∧
    (service_between 1 5 service_block_top).current_floor = cs "5" ∧
    (service_between 1 5 service_block_top).destination_floor = cs "6" := by
  refine ⟨by decide, by decide, by decide, by decide, by decide, by decide,
    by decide⟩

/-- C8 (amended): in individual service mode with status `Closed` and both
floors parsing, a destination that is not arithmetically one away from the
current floor (so in particular the zero-skipping pair B1/1, and any
injected far destination, in range or not) is clamped unconditionally by
`destination_floor := current_floor` with no motion; a destination exactly
one away and inside the configured range is reached: the car ends `Closed`
with `current_floor` the destination's label. -/
theorem c8_service_adjacent_move (lo hi : Int) (s : car_shared_mem) (c d : Int)
    (hsm : s.individual_service_mode ≠ 0) (hst : s.status = cs "Closed")
    (hc : floor_num_handler s.current_floor = some c)
    (hd : floor_num_handler s.destination_floor = some d) :
    (¬(d = c + 1 ∨ d = c - 1) →
      service_between lo hi s = { s with destination_floor := s.current_floor }) ∧
    ((d = c + 1 ∨ d = c - 1) → lo ≤ d → d ≤ hi →
      service_between lo hi s =
        { s with status := cs "Closed", current_floor := index_handler d }) := by
  have hguard : ¬(¬(s.individual_service_mode ≠ 0) ∨ ¬(s.status = cs "Closed")) := by
    intro hg
    rcases hg with hg | hg
    · exact hg hsm
    · exact hg hst
  constructor
  · intro hna
    simp only [service_between, hc, hd, Option.getD_some]
    rw [if_neg hguard, if_pos hna]
  · intro hadj hdl hdh
    have hdnz : d ≠ 0 := floor_num_handler_nonzero hd
    have hnext : next_floor c d = d := by
      rcases hadj with h | h
      · rw [next_floor, if_pos (by omega), if_neg (by omega)]
        omega
      · rw [next_floor, if_neg (by omega), if_pos (by omega), if_neg (by omega)]
        omega
    have hval : floor_validator lo hi d = d := by
      rw [floor_validator, if_neg (by omega), if_neg (by omega)]
    simp only [service_between, hc, hd, Option.getD_some]
    rw [if_neg hguard, if_neg (not_not_intro hadj)]
    simp only [move_one_floor, hc, hd, Option.getD_some, hnext, hval]

/-- Witness for C8's amended theorem: a car at floor 2 of range 1..5. -/
def service_block_mid : car_shared_mem :=
  { healthy_block with
    individual_service_mode := 1,
    current_floor := cs "2", destination_floor := cs "3" }

theorem c8_service_adjacent_move_witness :
    service_between 1 5 service_block_mid =
      { service_block_mid with
        current_floor := index_handler 3, status := cs "Closed" } := by
  have h := (c8_service_adjacent_move 1 5 service_block_mid 2 3
    (by decide) (by decide) (by decide) (by decide)).2
    (by decide) (by decide) (by decide)
  simpa using h

/-! ## Internal panel (`internal.c` main, lines 107-192) and claim C9 -/

/-- The internal panel's single-shot operation on the shared block: returns
the process exit status and the block afterwards.  Every failure path
returns before touching the block.  `up`/`down` with an unparseable
`current_floor` fall through the parse guard and exit 0 without writing. -/
def internal_op (operation : List Char) (s : car_shared_mem) :
    Nat × car_shared_mem :=
  if operation = cs "open" then (0, { s with open_button := 1 })
  else if operation = cs "close" then (0, { s with close_button := 1 })
  else if operation = cs "stop" then (0, { s with emergency_stop := 1 })
  else if operation = cs "service_on" then
    (0, { s with individual_service_mode := 1, emergency_mode := 0 })
  else if operation = cs "service_off" then
    (0, { s with individual_service_mode := 0 })
  else if operation = cs "up" ∨ operation = cs "down" then
    if s.individual_service_mode = 0 then (1, s)
    else if s.status = cs "Between" then (1, s)
    else if ¬(s.status = cs "Closed") then (1, s)
    else
      match floor_num_handler s.current_floor with
      | some current_floor =>
        let nf0 := current_floor + (if operation = cs "up" then 1 else -1)
        let nf := if nf0 = 0 then (if operation = cs "up" then 1 else -1) else nf0
        (0, { s with destination_floor := index_handler nf })
      | none => (0, s)
  else (1, s)

/-- A block latched in emergency mode. -/
def emergency_block : car_shared_mem := { healthy_block with emergency_mode := 1 }

/-- A service-mode block whose current floor does not parse. -/
def garbage_floor_block : car_shared_mem :=
  { healthy_block with individual_service_mode := 1, current_floor := cs "x" }

/-- C9 counterexample: `service_on` on a block in emergency mode succeeds
but modifies two fields — it raises `individual_service_mode` and clears
`emergency_mode` (internal.c:121-125) — and `up` in service mode with an
unparseable current floor succeeds while modifying no field at all. -/
theorem c9_service_on_two_fields :
    (internal_op (cs "service_on") emergency_block).1 = 0 ∧
    (internal_op (cs "service_on") emergency_block).2.individual_service_mode ≠
      emergency_block.individual_service_mode ∧
    (internal_op (cs "service_on") emergency_block).2.emergency_mode ≠
      emergency_block.emergency_mode ∧
    internal_op (cs "up") garbage_floor_block = (0, garbage_floor_block) := by
  refine ⟨by decide, by decide, by decide, by decide⟩

/-- `internal_op` at the literal operation `up`: the five leading name
comparisons are ground and reduce. -/
theorem internal_op_up (s : car_shared_mem) :
    internal_op (cs "up") s =
      (if s.individual_service_mode = 0 then (1, s)
       else if s.status = cs "Between" then (1, s)
       else if ¬(s.status = cs "Closed") then (1, s)
       else
         match floor_num_handler s.current_floor with
         | some c =>
           (0, { s with destination_floor :=
             index_handler (if c + 1 = 0 then 1 else c + 1) })
         | none => (0, s)) := rfl

/-- `internal_op` at the literal operation `down`. -/
theorem internal_op_down (s : car_shared_mem) :
    internal_op (cs "down") s =
      (if s.individual_service_mode = 0 then (1, s)
       else if s.status = cs "Between" then (1, s)
       else if ¬(s.status = cs "Closed") then (1, s)
       else
         match floor_num_handler s.current_floor with
         | some c =>
           (0, { s with destination_floor :=
             index_handler (if c - 1 = 0 then -1 else c - 1) })
         | none => (0, s)) := rfl

/-- C9 (amended): each panel operation writes exactly the fields listed —
`open`/`close`/`stop`/`service_off` write one flag, `service_on` raises
`individual_service_mode` and also forces `emergency_mode := 0`, and
`up`/`down` write only `destination_floor` (the zero-skipped adjacent
floor) when the current floor parses, and write nothing while still
exiting 0 when it does not; every precondition failure (`up`/`down`
outside service mode or with status not `Closed`, or an unrecognised
operation) exits non-zero with no field modified. -/
theorem c9_panel_frame (s : car_shared_mem) :
    internal_op (cs "open") s = (0, { s with open_button := 1 }) ∧
    internal_op (cs "close") s = (0, { s with close_button := 1 }) ∧
    internal_op (cs "stop") s = (0, { s with emergency_stop := 1 }) ∧
    internal_op (cs "service_on") s =
      (0, { s with individual_service_mode := 1, emergency_mode := 0 }) ∧
    internal_op (cs "service_off") s =
      (0, { s with individual_service_mode := 0 }) ∧
    (∀ op, (internal_op op s).1 ≠ 0 → (internal_op op s).2 = s) ∧
    (s.individual_service_mode = 0 →
      internal_op (cs "up") s = (1, s) ∧ internal_op (cs "down") s = (1, s)) ∧
    (s.status ≠ cs "Closed" →
      internal_op (cs "up") s = (1, s) ∧ internal_op (cs "down") s = (1, s)) ∧
    (s.individual_service_mode ≠ 0 → s.status = cs "Closed" →
      (∀ c, floor_num_handler s.current_floor = some c →
        internal_op (cs "up") s =
          (0, { s with destination_floor :=
            index_handler (if c + 1 = 0 then 1 else c + 1) }) ∧
        internal_op (cs "down") s =
          (0, { s with destination_floor :=
            index_handler (if c - 1 = 0 then -1 else c - 1) })) ∧
      (floor_num_handler s.current_floor = none →
        internal_op (cs "up") s = (0, s) ∧ internal_op (cs "down") s = (0, s))) ∧
    (∀ op, op ≠ cs "open" → op ≠ cs "close" → op ≠ cs "stop" →
      op ≠ cs "service_on" → op ≠ cs "service_off" → op ≠ cs "up" →
      op ≠ cs "down" → internal_op op s = (1, s)) := by
  refine ⟨rfl, rfl, rfl, rfl, rfl, ?_, ?_, ?_, ?_, ?_⟩
  · intro op h
    by_cases e1 : op = cs "open"
    · subst e1
      exact absurd rfl h
    by_cases e2 : op = cs "close"
    · subst e2
      exact absurd rfl h
    by_cases e3 : op = cs "stop"
    · subst e3
      exact absurd rfl h
    by_cases e4 : op = cs "service_on"
    · subst e4
      exact absurd rfl h
    by_cases e5 : op = cs "service_off"
    · subst e5
      exact absurd rfl h
    by_cases e6 : op = cs "up" ∨ op = cs "down"
    · simp only [internal_op, e1, e2, e3, e4, e5, e6, if_true, if_false,
        reduceIte] at h ⊢
      split_ifs at h ⊢ <;> try rfl
      all_goals
        rcases hm : floor_num_handler s.current_floor with _ | c <;>
          simp [hm] at h
    · simp [internal_op, e1, e2, e3, e4, e5, e6]
  · intro hsm
    constructor <;> simp [internal_op_up, internal_op_down, hsm]
  · intro hst
    by_cases hsm : s.individual_service_mode = 0
    · constructor <;> simp [internal_op_up, internal_op_down, hsm]
    · by_cases hbs : s.status = cs "Between"
      · constructor <;> simp [internal_op_up, internal_op_down, hsm, hbs]
      · constructor <;> simp [internal_op_up, internal_op_down, hsm, hbs, hst]
  · intro hsm hst
    have hne : cs "Closed" ≠ cs "Between" := by decide
    constructor
    · intro c hc
      constructor <;> simp [internal_op_up, internal_op_down, hsm, hst, hc, hne]
    · intro hc
      constructor <;> simp [internal_op_up, internal_op_down, hsm, hst, hc, hne]
  · intro op e1 e2 e3 e4 e5 e6 e7
    simp [internal_op, e1, e2, e3, e4, e5, e6, e7]

/-- Witness for C9's amended theorem: `stop` on the healthy block raises
only the emergency-stop flag, and an unrecognised operation fails without
mutation. -/
theorem c9_panel_frame_witness :
    internal_op (cs "stop") healthy_block =
      (0, { healthy_block with emergency_stop := 1 }) ∧
    internal_op (cs "fnord") healthy_block = (1, healthy_block) :=
  ⟨(c9_panel_frame healthy_block).2.2.1,
   (c9_panel_frame healthy_block).2.2.2.2.2.2.2.2.2 (cs "fnord")
     (by decide) (by decide) (by decide) (by decide) (by decide) (by decide)
     (by decide)⟩

end Elevator
